import Mathlib

set_option maxHeartbeats 1000000

namespace Scraper

/-!
Verification development for the distributed-scraper repository
(src/explorer.py, src/extractor.py, src/scraper.py, src/app.py).

The pure helpers (the URL filter of src/explorer.py and the title
extraction of src/extractor.py) are embedded as Lean functions; the two
worker loops and the broker they share are embedded as an executable
interleaved state machine, one atomic broker operation per step; the
orchestrator startup paths of src/scraper.py and src/app.py are embedded
as pure functions of the acknowledgment outcome.
-/

/-! ## URL parsing (model of urllib.parse.urlparse as used by is_valid_url)

src/explorer.py reads the fields scheme, netloc of the parsed URL; the
claim about the extension blacklist also needs path.  The model follows
CPython urlsplit: scheme is the text before the first colon when that
text is nonempty, starts with an ASCII letter and consists of scheme
characters only (lowercased); netloc follows a double slash, up to the
first slash, question mark or hash; path is the rest, cut at the first
question mark or hash.  Not modelled: whitespace stripping, IPv6 bracket
validation and params splitting at a semicolon, none of which the claims
touch.  is_valid_url wraps everything in a blanket except returning
False, so the Lean embedding is a total function. -/

def scheme_char (c : Char) : Bool :=
  c.isAlpha || c.isDigit || c = '+' || c = '-' || c = '.'

/-- Split a character list at the first colon: the parts strictly before and
strictly after it, or none when no colon occurs. -/
def splitColon : List Char → Option (List Char × List Char)
  | [] => none
  | c :: cs =>
    if c = ':' then some ([], cs)
    else
      match splitColon cs with
      | some (a, b) => some (c :: a, b)
      | none => none

/-- Take characters until one of the delimiters is reached; returns the taken
part and the rest (delimiter included in the rest). -/
def takeUntil (delims : List Char) : List Char → List Char × List Char
  | [] => ([], [])
  | c :: cs =>
    if delims.contains c then ([], c :: cs)
    else
      let (a, b) := takeUntil delims cs
      (c :: a, b)

/-- The candidate scheme is usable: nonempty, first char an ASCII letter, all
chars scheme characters. -/
def schemeOk : List Char → Bool
  | [] => false
  | c :: cs => c.isAlpha && (c :: cs).all scheme_char

structure UrlParts where
  scheme : String
  netloc : String
  path : String
deriving DecidableEq, Repr

/-- Model of urllib.parse.urlparse restricted to scheme, netloc and path. -/
def pyUrlparse (url : String) : UrlParts :=
  let cs := url.data
  let schemeRest : List Char × List Char :=
    match splitColon cs with
    | some (before, after) =>
      if schemeOk before then (before.map Char.toLower, after) else ([], cs)
    | none => ([], cs)
  let netlocRest : List Char × List Char :=
    match schemeRest.2 with
    | '/' :: '/' :: r => takeUntil ['/', '?', '#'] r
    | r => ([], r)
  let path := (takeUntil ['?', '#'] netlocRest.2).1
  ⟨⟨schemeRest.1⟩, ⟨netlocRest.1⟩, ⟨path⟩⟩

/-- The extension blacklist of src/explorer.py line 205. -/
def skip_extensions : List String :=
  [".pdf", ".jpg", ".png", ".gif", ".zip", ".mp4", ".css", ".js"]

/-- Python lower plus endswith over a string, as a character-list computation
(ASCII lowering; the blacklist entries are ASCII). -/
def pyLowerEndsWith (s suffix : String) : Bool :=
  (suffix.data.map Char.toLower).isSuffixOf (s.data.map Char.toLower)

/-- src/explorer.py is_valid_url (lines 182-211): scheme present, scheme http
or https (urlparse lowercases it), netloc present, netloc equal to the netloc
of the base URL, and the lowercased whole URL string (not just its path) does
not end with a blacklisted extension.  The Python body sits in a try with a
bare except returning False; the Lean embedding is total, so no except branch
is needed. -/
def is_valid_url (url base_url : String) : Bool :=
  let parsed := pyUrlparse url
  let base_parsed := pyUrlparse base_url
  if parsed.scheme.isEmpty then false
  else if !(parsed.scheme = "http" || parsed.scheme = "https") then false
  else if parsed.netloc.isEmpty then false
  else if parsed.netloc ≠ base_parsed.netloc then false
  else if skip_extensions.any (fun e => pyLowerEndsWith url e) then false
  else true

/-! ## Title extraction (src/extractor.py extract_title, lines 35-54) -/

/-- Contract-level model of the two BeautifulSoup queries made by
extract_title.  titleString is some t exactly when the query for the title tag
yields a truthy tag whose string attribute is a truthy string t (Python
truthiness: tag with children, string attribute neither None nor empty).
h1Text is some t exactly when the query for the first h1 yields a truthy tag;
t is its collected text. -/
structure Soup where
  titleString : Option String
  h1Text : Option String
deriving DecidableEq, Repr

/-- The title / h1 / sentinel chain of extract_title over a parsed document. -/
def extract_title_soup (sp : Soup) : String :=
  match sp.titleString with
  | some t => t.trim
  | none =>
    match sp.h1Text with
    | some t => t.trim
    | none => "No title found"

/-- src/extractor.py extract_title including the html = None case: the
BeautifulSoup constructor raises a TypeError on a None markup, which the
blanket except turns into the error sentinel.  For a string markup the lenient
html parser does not raise, so the function reduces to the chain above; the
document structure is supplied by the parse oracle. -/
def extract_title (parse : String → Soup) : Option String → String
  | none => "Error extracting title"
  | some h => extract_title_soup (parse h)

/-! ## The worker system (src/explorer.py explorer_worker, src/extractor.py
extractor_worker, plus the broker they share)

Each explorer and extractor worker is an independent process; the broker
(Redis) is the only shared state.  The embedding is an interleaved state
machine: one atomic broker operation (or one local control-flow move) per
step.  A Redis pipeline (the lpush/incr batch of each worker) is modelled as
one atomic step.  Queue payloads are JSON strings; the embedding keeps them
as a closed sum: a well-shaped item, or a malformed blob on which json.loads
or the field accesses fail. -/

/-- A queue payload: the JSON object with url and html fields that the
workers and the orchestrator produce, or a malformed payload (anything on
which json.loads raises or which lacks the accessed fields). -/
inductive Payload where
  | item (url : String) (html : Option String)
  | malformed (raw : String)
deriving DecidableEq, Repr

/-- json.loads plus the url/html field accesses of the worker loops. -/
def decodePayload : Payload → Option (String × Option String)
  | .item u h => some (u, h)
  | .malformed _ => none

/-- src/explorer.py explore_url (lines 153-180).  fetchRes = none models a
requests failure of any kind (RequestException or any other exception): the
function returns None and an empty link list.  fetchRes = some (html, cands)
models a successful fetch whose anchors, resolved against url by urljoin,
give the candidate absolute URLs cands; the function keeps the candidates
accepted by is_valid_url against the page URL. -/
def exploreUrl (url : String) (fetchRes : Option (String × List String)) :
    Option String × List String :=
  match fetchRes with
  | none => (none, [])
  | some (html, cands) => (some html, cands.filter (fun c => is_valid_url c url))

/-- Control point of an explorer worker inside its loop (lines 108-151).
ready is the top of the loop; decodeQ holds a popped raw payload before
json.loads (which is not inside any try); dedup is before the sadd call;
fetchQ is after a winning sadd, before the network fetch; publishQ holds the
fetch outcome before the pipeline; checkQ is the trailing stop_signal read;
stopped is loop exit; crashed is the worker process dying on an uncaught
exception. -/
inductive ExpPhase where
  | ready
  | decodeQ (p : Payload)
  | dedup (url : String)
  | fetchQ (url : String)
  | publishQ (url : String) (html : Option String) (links : List String)
  | checkQ
  | stopped
  | crashed
deriving DecidableEq, Repr

/-- Control point of an extractor worker inside its loop (lines 68-116).
The whole body sits in a try whose handlers all continue, so there is no
crashed phase; recordQ holds the computed title before the xadd/incr
pipeline. -/
inductive ExtPhase where
  | ready
  | decodeQ (p : Payload)
  | recordQ (url : String) (title : String)
  | checkQ
  | stopped
deriving DecidableEq, Repr

/-- One entry of the results stream (url and title; the wall-clock timestamp
and the OS process id of the worker are environment values, left out). -/
structure ResultRecord where
  url : String
  title : String
deriving DecidableEq, Repr

/-- The shared broker state plus the control point and per-process signal
flag of every worker.  frontier is the explored_queue, exploit the exploit_queue (both
FIFO here: lpush enqueues at the back of the model list, brpop pops the
front).  visited is the visited_urls set, stopFlag the stop_signal key,
localStopE / localStopX the per-process should_stop flags set by the OS
signal handlers. -/
structure SysState where
  frontier : List Payload
  exploit : List Payload
  visited : List String
  urlsFound : Nat
  urlsExtracted : Nat
  results : List ResultRecord
  stopFlag : Bool
  localStopE : List Bool
  localStopX : List Bool
  expW : List ExpPhase
  extW : List ExtPhase
deriving DecidableEq, Repr

/-- One atomic move of the system: orchestrator and environment actions
(seeding, the deadline monitor setting stop_signal, foreign or stale queue
content, OS signals), explorer worker moves (prefix e) and extractor worker
moves (prefix x).  w is the index of the acting worker. -/
inductive Act where
  | seed (root : String)
  | setStop
  | injectF (raw : String)
  | injectX (raw : String)
  | sigE (w : Nat)
  | sigX (w : Nat)
  | eStop (w : Nat)
  | eTimeout (w : Nat)
  | ePop (w : Nat)
  | eDecode (w : Nat)
  | eDedupNew (w : Nat) (u : String)
  | eDedupDup (w : Nat) (u : String)
  | eFetch (w : Nat) (u : String) (res : Option (String × List String))
  | ePublish (w : Nat)
  | eCheck (w : Nat)
  | xStop (w : Nat)
  | xTimeout (w : Nat)
  | xPop (w : Nat)
  | xProcess (w : Nat)
  | xRecord (w : Nat)
  | xAbort (w : Nat)
  | xCheck (w : Nat)
deriving DecidableEq, Repr

/-- One step of the system.  none means the action is not enabled in this
state.  Guards and effects are read off the two worker loops:

seed: the orchestrator lpush of the root item (src/scraper.py line 64).
setStop: the deadline monitor setting stop_signal to 1.
injectF / injectX: a malformed payload appearing on a queue (foreign or
  stale broker content; the system itself only ever pushes well-shaped
  items).
sigE / sigX: SIGINT or SIGTERM delivered to a worker process; the handler
  sets the process-local should_stop flag.
eStop: the while condition of explorer_worker sees should_stop and exits.
eTimeout: brpop on an empty explored_queue returns nothing after 1 second
  and the loop continues; only the while condition (the local flag) is
  re-checked, the broker stop_signal is not read on this path.
ePop: brpop returns the front payload.
eDecode: json.loads plus the url field access, not inside any try: a
  well-shaped item moves to the dedup point, a malformed one raises and the
  uncaught exception terminates the worker (crashed).
eDedupNew / eDedupDup: the sadd on visited_urls: atomically adds and reports
  whether the url was new; a duplicate is discarded with continue (back to
  the loop top, skipping the trailing stop_signal check).
eFetch: explore_url, with res the fetch outcome chosen by the environment.
ePublish: the pipeline: lpush of every discovered link not already in
  visited at pre-check time, lpush of one exploit item with the page url and
  html, and one incr of urls_found; executed as one step.
eCheck: the trailing read of stop_signal: if it is 1 the loop breaks,
  otherwise the next iteration starts.
xStop / xTimeout / xPop: as for the explorer, on exploit_queue.
xProcess: json.loads plus field accesses inside the try: a well-shaped item
  has its title extracted and moves to the record point; a malformed one is
  dropped by the JSONDecodeError / Exception handlers and the loop
  continues.
xRecord: the xadd of the result record plus the incr of urls_extracted, one
  pipeline, one step.
xAbort: a ConnectionError or other exception between pop and record, caught
  by the handlers: the iteration is abandoned and the popped item is lost.
xCheck: the trailing read of stop_signal by the extractor. -/
def stepFn (parse : String → Soup) (s : SysState) (a : Act) : Option SysState :=
  match a with
  | .seed root => some { s with frontier := s.frontier ++ [.item root none] }
  | .setStop => some { s with stopFlag := true }
  | .injectF raw => some { s with frontier := s.frontier ++ [.malformed raw] }
  | .injectX raw => some { s with exploit := s.exploit ++ [.malformed raw] }
  | .sigE w =>
    if w < s.localStopE.length then
      some { s with localStopE := s.localStopE.set w true }
    else none
  | .sigX w =>
    if w < s.localStopX.length then
      some { s with localStopX := s.localStopX.set w true }
    else none
  | .eStop w =>
    match s.expW.get? w, s.localStopE.get? w with
    | some .ready, some true => some { s with expW := s.expW.set w .stopped }
    | _, _ => none
  | .eTimeout w =>
    match s.expW.get? w, s.localStopE.get? w with
    | some .ready, some false => if s.frontier.isEmpty then some s else none
    | _, _ => none
  | .ePop w =>
    match s.expW.get? w, s.localStopE.get? w, s.frontier with
    | some .ready, some false, p :: rest =>
      some { s with frontier := rest, expW := s.expW.set w (.decodeQ p) }
    | _, _, _ => none
  | .eDecode w =>
    match s.expW.get? w with
    | some (.decodeQ p) =>
      match decodePayload p with
      | some (u, _) => some { s with expW := s.expW.set w (.dedup u) }
      | none => some { s with expW := s.expW.set w .crashed }
    | _ => none
  | .eDedupNew w u =>
    match s.expW.get? w with
    | some (.dedup u') =>
      if u' = u ∧ u ∉ s.visited then
        some { s with visited := u :: s.visited, expW := s.expW.set w (.fetchQ u) }
      else none
    | _ => none
  | .eDedupDup w u =>
    match s.expW.get? w with
    | some (.dedup u') =>
      if u' = u ∧ u ∈ s.visited then
        some { s with expW := s.expW.set w .ready }
      else none
    | _ => none
  | .eFetch w u res =>
    match s.expW.get? w with
    | some (.fetchQ u') =>
      if u' = u then
        some { s with
          expW := s.expW.set w (.publishQ u (exploreUrl u res).1 (exploreUrl u res).2) }
      else none
    | _ => none
  | .ePublish w =>
    match s.expW.get? w with
    | some (.publishQ u h links) =>
      some { s with
        frontier := s.frontier ++
          (links.filter (fun l => !s.visited.contains l)).map (fun l => Payload.item l none),
        exploit := s.exploit ++ [.item u h],
        urlsFound := s.urlsFound + 1,
        expW := s.expW.set w .checkQ }
    | _ => none
  | .eCheck w =>
    match s.expW.get? w with
    | some .checkQ =>
      some { s with expW := s.expW.set w (if s.stopFlag then .stopped else .ready) }
    | _ => none
  | .xStop w =>
    match s.extW.get? w, s.localStopX.get? w with
    | some .ready, some true => some { s with extW := s.extW.set w .stopped }
    | _, _ => none
  | .xTimeout w =>
    match s.extW.get? w, s.localStopX.get? w with
    | some .ready, some false => if s.exploit.isEmpty then some s else none
    | _, _ => none
  | .xPop w =>
    match s.extW.get? w, s.localStopX.get? w, s.exploit with
    | some .ready, some false, p :: rest =>
      some { s with exploit := rest, extW := s.extW.set w (.decodeQ p) }
    | _, _, _ => none
  | .xProcess w =>
    match s.extW.get? w with
    | some (.decodeQ p) =>
      match decodePayload p with
      | some (u, h) =>
        some { s with extW := s.extW.set w (.recordQ u (extract_title parse h)) }
      | none => some { s with extW := s.extW.set w .ready }
    | _ => none
  | .xRecord w =>
    match s.extW.get? w with
    | some (.recordQ u t) =>
      some { s with
        results := s.results ++ [⟨u, t⟩],
        urlsExtracted := s.urlsExtracted + 1,
        extW := s.extW.set w .checkQ }
    | _ => none
  | .xAbort w =>
    match s.extW.get? w with
    | some (.decodeQ _) => some { s with extW := s.extW.set w .ready }
    | some (.recordQ _ _) => some { s with extW := s.extW.set w .ready }
    | _ => none
  | .xCheck w =>
    match s.extW.get? w with
    | some .checkQ =>
      some { s with extW := s.extW.set w (if s.stopFlag then .stopped else .ready) }
    | _ => none

/-- Run a list of actions from a state; none as soon as one is not enabled. -/
def runSteps (parse : String → Soup) : SysState → List Act → Option SysState
  | s, [] => some s
  | s, a :: tr =>
    match stepFn parse s a with
    | some s' => runSteps parse s' tr
    | none => none

/-- The state right after the orchestrator reset (flushdb plus the key
initialisation of a new job) with nE explorer and nX extractor workers, all
at the top of their loops. -/
def initState (nE nX : Nat) : SysState :=
  { frontier := [], exploit := [], visited := [], urlsFound := 0,
    urlsExtracted := 0, results := [], stopFlag := false,
    localStopE := List.replicate nE false, localStopX := List.replicate nX false,
    expW := List.replicate nE .ready, extW := List.replicate nX .ready }

/-! ### Trace counters -/

/-- The action is a network fetch of u. -/
def isFetchOf (u : String) : Act → Bool
  | .eFetch _ u' _ => u' == u
  | _ => false

/-- The action is a network fetch by worker w. -/
def isFetchBy (w : Nat) : Act → Bool
  | .eFetch w' _ _ => w' == w
  | _ => false

/-- The action is a sadd on visited_urls for u that reported u as new. -/
def isDedupNewOf (u : String) : Act → Bool
  | .eDedupNew _ u' => u' == u
  | _ => false

/-- The action is an explorer pipeline, which enqueues exactly one exploit
item and increments urls_found once. -/
def isPublish : Act → Bool
  | .ePublish _ => true
  | _ => false

/-- Number of fetches of u in a trace. -/
def countFetch (u : String) (tr : List Act) : Nat := tr.countP (isFetchOf u)

/-- Number of fetches by worker w in a trace. -/
def countFetchBy (w : Nat) (tr : List Act) : Nat := tr.countP (isFetchBy w)

/-- Number of winning sadd calls for u in a trace. -/
def countDedupNew (u : String) (tr : List Act) : Nat := tr.countP (isDedupNewOf u)

/-- Number of explorer pipelines in a trace: the number of exploit items ever
enqueued by the system, and the total added to urls_found. -/
def countPublish (tr : List Act) : Nat := tr.countP isPublish

/-! ## Orchestrator startup (src/scraper.py main, src/app.py start_scraper)

Both reset the broker, publish the start command, then brpop the explorer
acknowledgment queue with a 10 second timeout.  The embedding takes the
brpop outcomes as inputs (none = timeout) and records the broker keys the
startup path writes. -/

/-- The broker keys written by the startup paths. -/
structure OrchBroker where
  num_explorers : Nat
  num_extractors : Nat
  stop_signal : Bool
  duration : Nat
  urls_found : Nat
  urls_extracted : Nat
  root_url : String
  start_time : Option Nat
  explored_queue : List Payload
deriving DecidableEq, Repr

/-- The broker right after the reset block shared by both startup paths
(flushdb, ack queue deletes, key initialisation). -/
def resetBroker (root : String) (durationMin nE nX : Nat) : OrchBroker :=
  { num_explorers := nE, num_extractors := nX, stop_signal := false,
    duration := durationMin * 60, urls_found := 0, urls_extracted := 0,
    root_url := root, start_time := none, explored_queue := [] }

/-- Outcome of src/scraper.py main: either the process exits with status 1
and a message, or the job is running with the given broker state. -/
inductive MainResult where
  | exit1 (msg : String)
  | running (b : OrchBroker)
deriving DecidableEq, Repr

/-- src/scraper.py main (lines 16-74): reset, publish start, wait for the
explorer acknowledgment, then the extractor acknowledgment; on either
timeout print a failure and exit with status 1, before start_time is set and
before the root item is pushed.  now is the wall clock read by time.time. -/
def scraper_main (root : String) (durationMin nE nX now : Nat)
    (explorerAck extractorAck : Option String) : MainResult :=
  let b0 := resetBroker root durationMin nE nX
  match explorerAck with
  | none => .exit1 "Explorer workers failed to start (timeout)"
  | some _ =>
    match extractorAck with
    | none => .exit1 "Extractor workers failed to start (timeout)"
    | some _ =>
      .running { b0 with
        start_time := some now,
        explored_queue := [.item root none] }

/-- The JSON body returned by the start route of src/app.py. -/
structure StartResponse where
  success : Bool
  message : String
deriving DecidableEq, Repr

/-- src/app.py start_scraper (lines 200-246): reset, publish start, brpop the
explorer acknowledgment with a 10 second timeout, binding the result to a
variable that is never inspected (the extractor wait is commented out); then
unconditionally set start_time, push the root item, spawn the monitor and
broadcast threads and return a success body.  The returned broker and
response are the same for every acknowledgment outcome, timeout included. -/
def start_scraper (root : String) (durationMin nE nX now : Nat)
    (explorerAck : Option String) : OrchBroker × StartResponse :=
  let b0 := resetBroker root durationMin nE nX
  let _ack := explorerAck
  ({ b0 with
      start_time := some now,
      explored_queue := [.item root none] },
   { success := true,
     message := "Scraper started!" })


/-! ## Derived counting helpers and fixture states

pendFetch counts the explorer workers that are past a winning test-and-add
but have not yet fetched; goodExploit counts the well-shaped items in the
exploit queue; xFlight counts the extractor workers holding a popped item
they have not yet recorded.  The fixture states and traces below are
concrete inputs for the witnesses and counterexamples. -/

def pendFetch (u : String) (s : SysState) : Nat :=
  s.expW.countP (fun ph => ph == ExpPhase.fetchQ u)

/-- Payload is a well-shaped item. -/
def isGoodP : Payload → Bool
  | .item _ _ => true
  | .malformed _ => false

/-- Extractor worker holds a popped well-shaped item it has not yet recorded. -/
def extFlightP : ExtPhase → Bool
  | .decodeQ p => isGoodP p
  | .recordQ _ _ => true
  | _ => false

def goodExploit (s : SysState) : Nat := s.exploit.countP isGoodP

def xFlight (s : SysState) : Nat := s.extW.countP extFlightP

set_option maxHeartbeats 2000000 in

def parse0 : String → Soup := fun _ => ⟨none, none⟩

-- C1 pieces

def trC1 : List Act := [.injectF "oops", .ePop 0, .eDecode 0]

def sC1 : SysState :=
  { frontier := [], exploit := [], visited := [], urlsFound := 0,
    urlsExtracted := 0, results := [], stopFlag := false,
    localStopE := [], localStopX := [false], expW := [],
    extW := [.decodeQ (.malformed "x")] }

def sC1d : SysState := (stepFn parse0 sC1 (.xProcess 0)).getD sC1

def bC2 : OrchBroker :=
  { num_explorers := 4, num_extractors := 1, stop_signal := false,
    duration := 60, urls_found := 0, urls_extracted := 0,
    root_url := "https://r.test/", start_time := some 0,
    explored_queue := [.item "https://r.test/" none] }

def trC4 : List Act :=
  [.seed "http://w.test/", .ePop 0, .eDecode 0, .eDedupNew 0 "http://w.test/",
   .eFetch 0 "http://w.test/" none, .ePublish 0]

def sC6 : SysState :=
  { frontier := [], exploit := [], visited := [], urlsFound := 7,
    urlsExtracted := 0, results := [], stopFlag := false,
    localStopE := [false], localStopX := [],
    expW := [.publishQ "http://c.test/" none
      ["http://c.test/a", "http://c.test/b", "http://c.test/c"]], extW := [] }

def sC6d : SysState := (stepFn parse0 sC6 (.ePublish 0)).getD sC6

def sC7 : SysState :=
  { frontier := [], exploit := [.item "http://q.test/" (some "x")], visited := [],
    urlsFound := 0, urlsExtracted := 0, results := [], stopFlag := false,
    localStopE := [false], localStopX := [],
    expW := [.fetchQ "http://f.test/"], extW := [] }

def parseH1 : String → Soup := fun _ => ⟨none, some " Welcome "⟩

def trC9 : List Act :=
  [.seed "http://r9.test/", .ePop 0, .eDecode 0, .eDedupNew 0 "http://r9.test/",
   .eFetch 0 "http://r9.test/" (some ("<html>", ["http://r9.test/a"])),
   .ePublish 0, .eCheck 0, .xPop 0, .xProcess 0, .xRecord 0]

def s9 : SysState := (runSteps parse0 (initState 1 1) trC9).getD (initState 1 1)

def sC10 : SysState :=
  { frontier := [], exploit := [], visited := [], urlsFound := 0,
    urlsExtracted := 0, results := [], stopFlag := false,
    localStopE := [], localStopX := [false], expW := [],
    extW := [.decodeQ (.item "http://n.test/" none)] }

def sC10d : SysState := (stepFn parse0 sC10 (.xProcess 0)).getD sC10

def trA5 : List Act :=
  [.seed "http://s.test/", .ePop 1, .eDecode 1, .eDedupNew 1 "http://s.test/",
   .eFetch 1 "http://s.test/" (some ("h", ["http://s.test/a"])),
   .eTimeout 0, .setStop]

def sC5 : SysState :=
  { frontier := [], exploit := [], visited := ["http://s.test/"], urlsFound := 1,
    urlsExtracted := 0, results := [], stopFlag := true,
    localStopE := [false], localStopX := [], expW := [.stopped], extW := [] }

def sC5d : SysState := (runSteps parse0 sC5 [.seed "http://s.test/b"]).getD sC5

/-! ## Invariant lemmas over single steps and runs -/

lemma countP_set_add {α : Type} (p : α → Bool) (l : List α) (i : Nat) (x : α)
    (h : i < l.length) :
    (l.set i x).countP p + (if p l[i] then 1 else 0)
      = l.countP p + (if p x then 1 else 0) := by
  have h1 := List.countP_set p l i x h
  have h2 := List.boole_getElem_le_countP p l i h
  omega

lemma countP_set_false {α : Type} (p : α → Bool) (l : List α) (i : Nat) (x old : α)
    (h : l[i]? = some old) (hold : p old = false) (hx : p x = false) :
    (l.set i x).countP p = l.countP p := by
  obtain ⟨hi, hv⟩ := List.getElem?_eq_some.mp h
  have h1 := countP_set_add p l i x hi
  rw [hv, hold, hx] at h1
  omega

set_option maxHeartbeats 2000000 in

lemma getElem?_set_other {α : Type} {l : List α} {i j : Nat} {x y : α} (z : α)
    (hi : l[i]? = some x) (hj : l[j]? = some y) (hxy : x ≠ y) :
    (l.set j z)[i]? = some x := by
  have hne : j ≠ i := by
    rintro rfl
    rw [hi] at hj
    cases hj
    exact hxy rfl
  rw [List.getElem?_set_ne hne]
  exact hi

lemma runSteps_cons {parse : String → Soup} {s : SysState} {a : Act} {tr : List Act}
    {s' : SysState} (h : runSteps parse s (a :: tr) = some s') :
    ∃ s₁, stepFn parse s a = some s₁ ∧ runSteps parse s₁ tr = some s' := by
  simp only [runSteps] at h
  cases hs : stepFn parse s a with
  | none => rw [hs] at h; exact absurd h (by simp)
  | some s₁ => rw [hs] at h; exact ⟨s₁, rfl, h⟩

lemma visited_step {parse : String → Soup} {s : SysState} {a : Act} {s' : SysState}
    (h : stepFn parse s a = some s') (u : String) :
    (isDedupNewOf u a = true → u ∉ s.visited ∧ u ∈ s'.visited) ∧
    (u ∈ s.visited → u ∈ s'.visited) := by
  cases a <;> simp only [stepFn] at h <;>
    (repeat' split at h) <;>
    (try cases h) <;>
    simp_all [isDedupNewOf] <;> (rintro rfl; tauto)

set_option maxHeartbeats 2000000 in
lemma pend_step {parse : String → Soup} {s : SysState} {a : Act} {s' : SysState}
    (h : stepFn parse s a = some s') (u : String) :
    (if isFetchOf u a then 1 else 0) + pendFetch u s'
      = (if isDedupNewOf u a then 1 else 0) + pendFetch u s := by
  cases a
  case eDedupNew w v =>
    simp only [stepFn] at h
    split at h
    case h_2 => exact absurd h (by simp)
    case h_1 u' heq =>
      split at h
      case isFalse => exact absurd h (by simp)
      case isTrue hc =>
        obtain ⟨rfl, hnotin⟩ := hc
        cases h
        rw [List.get?_eq_getElem?] at heq
        obtain ⟨hw, hv⟩ := List.getElem?_eq_some.mp heq
        have h1 := countP_set_add (fun ph => ph == ExpPhase.fetchQ u) s.expW w
          (ExpPhase.fetchQ u') hw
        rw [hv] at h1
        simp only [isFetchOf, isDedupNewOf, pendFetch]
        simp only [beq_iff_eq] at h1 ⊢
        by_cases hvu : u' = u <;> simp_all <;> omega
  case eFetch w v res =>
    simp only [stepFn] at h
    split at h
    case h_2 => exact absurd h (by simp)
    case h_1 u' heq =>
      split at h
      case isFalse => exact absurd h (by simp)
      case isTrue hc =>
        cases hc
        cases h
        rw [List.get?_eq_getElem?] at heq
        obtain ⟨hw, hv⟩ := List.getElem?_eq_some.mp heq
        have h1 := countP_set_add (fun ph => ph == ExpPhase.fetchQ u) s.expW w
          (ExpPhase.publishQ v (exploreUrl v res).1 (exploreUrl v res).2) hw
        rw [hv] at h1
        simp only [isFetchOf, isDedupNewOf, pendFetch]
        simp only [beq_iff_eq] at h1 ⊢
        by_cases hvu : v = u <;> simp_all <;> omega
  all_goals
    (simp only [stepFn] at h <;> (repeat' split at h) <;> (try cases h) <;>
      simp_all [isFetchOf, isDedupNewOf, pendFetch, countP_set_false])

lemma fetch_dedup_conserv {parse : String → Soup} {tr : List Act} :
    ∀ {s s' : SysState}, runSteps parse s tr = some s' → ∀ u,
      countFetch u tr + pendFetch u s' = countDedupNew u tr + pendFetch u s := by
  induction tr with
  | nil =>
    intro s s' h u
    simp only [runSteps, Option.some.injEq] at h
    subst h
    simp [countFetch, countDedupNew]
  | cons a tr ih =>
    intro s s' h u
    obtain ⟨s₁, h1, h2⟩ := runSteps_cons h
    have hp := pend_step h1 u
    have ht := ih h2 u
    simp only [countFetch, countDedupNew, List.countP_cons] at *
    omega

lemma dedup_bound {parse : String → Soup} {tr : List Act} :
    ∀ {s s' : SysState}, runSteps parse s tr = some s' → ∀ u,
      countDedupNew u tr ≤ if u ∈ s.visited then 0 else 1 := by
  induction tr with
  | nil =>
    intro s s' h u
    simp [countDedupNew]
  | cons a tr ih =>
    intro s s' h u
    obtain ⟨s₁, h1, h2⟩ := runSteps_cons h
    have hv := visited_step h1 u
    have ht := ih h2 u
    simp only [countDedupNew, List.countP_cons] at *
    by_cases hd : isDedupNewOf u a
    · obtain ⟨hnotin, hin⟩ := hv.1 hd
      rw [if_neg hnotin]
      rw [if_pos hin] at ht
      simp [hd] at *
      exact ht
    · by_cases hm : u ∈ s.visited
      · have := hv.2 hm
        rw [if_pos this] at ht
        simp [hd, hm] at *
        exact ht
      · simp [hd, hm]
        split at ht <;> omega

lemma pendFetch_init (u : String) (nE nX : Nat) : pendFetch u (initState nE nX) = 0 := by
  simp [pendFetch, initState, List.countP_eq_zero]

lemma urlsFound_step {parse : String → Soup} {s : SysState} {a : Act} {s' : SysState}
    (h : stepFn parse s a = some s') :
    s'.urlsFound = s.urlsFound + (if isPublish a then 1 else 0) := by
  cases a <;> simp only [stepFn] at h <;>
    (repeat' split at h) <;> (try cases h) <;>
    simp_all [isPublish]

lemma urlsFound_trace {parse : String → Soup} {tr : List Act} :
    ∀ {s s' : SysState}, runSteps parse s tr = some s' →
      s'.urlsFound = s.urlsFound + countPublish tr := by
  induction tr with
  | nil =>
    intro s s' h
    simp only [runSteps, Option.some.injEq] at h
    subst h
    simp [countPublish]
  | cons a tr ih =>
    intro s s' h
    obtain ⟨s₁, h1, h2⟩ := runSteps_cons h
    have hp := urlsFound_step h1
    have ht := ih h2
    simp only [countPublish, List.countP_cons] at *
    omega

set_option maxHeartbeats 2000000 in
lemma extracted_step {parse : String → Soup} {s : SysState} {a : Act} {s' : SysState}
    (h : stepFn parse s a = some s') :
    s'.urlsExtracted + goodExploit s' + xFlight s'
      ≤ s.urlsExtracted + goodExploit s + xFlight s + (if isPublish a then 1 else 0) := by
  cases a
  case xPop w =>
    simp only [stepFn] at h
    split at h
    case h_2 => exact absurd h (by simp)
    case h_1 p rest heq1 heq2 heq3 =>
      cases h
      rw [List.get?_eq_getElem?] at heq1
      obtain ⟨hw, hv⟩ := List.getElem?_eq_some.mp heq1
      have h1 := countP_set_add extFlightP s.extW w (.decodeQ p) hw
      rw [hv] at h1
      simp only [isPublish, goodExploit, xFlight, extFlightP] at *
      rw [heq3]
      simp only [List.countP_cons]
      by_cases hg : isGoodP p <;> simp_all <;> omega
  case xProcess w =>
    simp only [stepFn] at h
    split at h
    case h_2 => exact absurd h (by simp)
    case h_1 p heq =>
      split at h
      case h_1 u0 h0 heqd =>
        cases h
        cases p with
        | malformed raw => simp [decodePayload] at heqd
        | item iu ihh =>
          rw [List.get?_eq_getElem?] at heq
          obtain ⟨hw, hv⟩ := List.getElem?_eq_some.mp heq
          have h1 := countP_set_add extFlightP s.extW w
            (.recordQ u0 (extract_title parse h0)) hw
          rw [hv] at h1
          simp only [extFlightP, isGoodP] at h1
          simp only [goodExploit, xFlight, isPublish]
          simp at h1 ⊢
          omega
      case h_2 heqd =>
        cases h
        cases p with
        | item iu ihh => simp [decodePayload] at heqd
        | malformed raw =>
          rw [List.get?_eq_getElem?] at heq
          obtain ⟨hw, hv⟩ := List.getElem?_eq_some.mp heq
          have h1 := countP_set_add extFlightP s.extW w .ready hw
          rw [hv] at h1
          simp only [extFlightP, isGoodP] at h1
          simp only [goodExploit, xFlight, isPublish]
          simp at h1 ⊢
          omega
  case xRecord w =>
    simp only [stepFn] at h
    split at h
    case h_2 => exact absurd h (by simp)
    case h_1 u0 t0 heq =>
      cases h
      rw [List.get?_eq_getElem?] at heq
      obtain ⟨hw, hv⟩ := List.getElem?_eq_some.mp heq
      have h1 := countP_set_add extFlightP s.extW w .checkQ hw
      rw [hv] at h1
      simp only [extFlightP] at h1
      simp only [goodExploit, xFlight, isPublish]
      simp at h1 ⊢
      omega
  case xAbort w =>
    simp only [stepFn] at h
    split at h
    case h_3 => exact absurd h (by simp)
    case h_1 p heq =>
      cases h
      rw [List.get?_eq_getElem?] at heq
      obtain ⟨hw, hv⟩ := List.getElem?_eq_some.mp heq
      have h1 := countP_set_add extFlightP s.extW w .ready hw
      rw [hv] at h1
      simp only [extFlightP] at h1
      simp only [goodExploit, xFlight, isPublish]
      simp at h1 ⊢
      by_cases hg : isGoodP p <;> simp_all <;> omega
    case h_2 u0 t0 heq =>
      cases h
      rw [List.get?_eq_getElem?] at heq
      obtain ⟨hw, hv⟩ := List.getElem?_eq_some.mp heq
      have h1 := countP_set_add extFlightP s.extW w .ready hw
      rw [hv] at h1
      simp only [extFlightP] at h1
      simp only [goodExploit, xFlight, isPublish]
      simp at h1 ⊢
      omega
  all_goals
    (simp only [stepFn] at h <;> (repeat' split at h) <;> (try cases h) <;>
      simp_all [isPublish, goodExploit, xFlight, extFlightP, isGoodP, countP_set_false] <;>
      omega)

lemma extracted_trace {parse : String → Soup} {tr : List Act} :
    ∀ {s s' : SysState}, runSteps parse s tr = some s' →
      s'.urlsExtracted + goodExploit s' + xFlight s'
        ≤ s.urlsExtracted + goodExploit s + xFlight s + countPublish tr := by
  induction tr with
  | nil =>
    intro s s' h
    simp only [runSteps, Option.some.injEq] at h
    subst h
    simp [countPublish]
  | cons a tr ih =>
    intro s s' h
    obtain ⟨s₁, h1, h2⟩ := runSteps_cons h
    have hp := extracted_step h1
    have ht := ih h2
    simp only [countPublish, List.countP_cons] at *
    omega

lemma stopped_next {parse : String → Soup} {s : SysState} {a : Act} {s' : SysState}
    (h : stepFn parse s a = some s') {w : Nat}
    (hw : s.expW.get? w = some .stopped) :
    s'.expW.get? w = some .stopped := by
  rw [List.get?_eq_getElem?] at *
  cases a <;> simp only [stepFn] at h <;>
    (repeat' split at h) <;> (try cases h) <;>
    simp_all [getElem?_set_other]

lemma fetch_requires_phase {parse : String → Soup} {s : SysState} {w : Nat}
    {u : String} {res : Option (String × List String)} {s' : SysState}
    (h : stepFn parse s (.eFetch w u res) = some s') :
    s.expW.get? w = some (.fetchQ u) := by
  simp only [stepFn] at h
  split at h
  case h_2 => exact absurd h (by simp)
  case h_1 u' heq =>
    split at h
    case isFalse => exact absurd h (by simp)
    case isTrue hc =>
      subst hc
      exact heq

lemma no_fetch_after_stop {parse : String → Soup} {tr : List Act} :
    ∀ {s s' : SysState} {w : Nat}, runSteps parse s tr = some s' →
      s.expW.get? w = some .stopped → countFetchBy w tr = 0 := by
  induction tr with
  | nil =>
    intro s s' w h hw
    simp [countFetchBy]
  | cons a tr ih =>
    intro s s' w h hw
    obtain ⟨s₁, h1, h2⟩ := runSteps_cons h
    have hnext := stopped_next h1 hw
    have ht := ih h2 hnext
    simp only [countFetchBy, List.countP_cons] at *
    have hza : isFetchBy w a = false := by
      cases a <;> simp [isFetchBy]
      case eFetch w' u res =>
        intro hww
        subst hww
        have := fetch_requires_phase h1
        rw [hw] at this
        cases this
    rw [hza]
    simpa using ht

/-! ## The claims -/

/-- C1 counterexample: the claim as stated is false for the explorer worker.
From a fresh one-explorer job whose frontier holds one malformed payload, the
explorer pops it and the json decode raises: the run ends with the worker in
the crashed state, that is the uncaught exception terminated the worker
instead of the item being dropped and the loop continuing. -/
theorem C1_counterexample :
    decodePayload (Payload.malformed "oops") = none ∧
    (runSteps parse0 (initState 1 1) trC1).map (fun s => s.expW.get? 0)
      = some (some ExpPhase.crashed) :=
  ⟨rfl, rfl⟩

/-- C1, amended: only the extractor worker drops a malformed queue payload
and continues, because its loop body sits in a try whose handlers continue;
the explorer worker performs json.loads outside any try, so a malformed
payload propagates an exception that terminates that worker.  First part:
the extractor processing step on a malformed payload returns the worker to
the loop top with nothing recorded and nothing counted.  Second part: the
explorer decode step on a malformed payload leaves the worker crashed. -/
theorem C1_theorem (parse : String → Soup) :
    (∀ s s' w raw, s.extW.get? w = some (.decodeQ (.malformed raw)) →
        stepFn parse s (.xProcess w) = some s' →
        s'.extW.get? w = some .ready ∧ s'.results = s.results ∧
          s'.urlsExtracted = s.urlsExtracted) ∧
    (∀ s s' w raw, s.expW.get? w = some (.decodeQ (.malformed raw)) →
        stepFn parse s (.eDecode w) = some s' →
        s'.expW.get? w = some .crashed) := by
  constructor
  · intro s s' w raw hw h
    simp only [stepFn, hw, decodePayload] at h
    cases h
    rw [List.get?_eq_getElem?] at hw ⊢
    obtain ⟨hb, -⟩ := List.getElem?_eq_some.mp hw
    simp [List.getElem?_set_self hb]
  · intro s s' w raw hw h
    simp only [stepFn, hw, decodePayload] at h
    cases h
    rw [List.get?_eq_getElem?] at hw ⊢
    obtain ⟨hb, -⟩ := List.getElem?_eq_some.mp hw
    simp [List.getElem?_set_self hb]

/-- C1 witness: the amended theorem applied to a concrete extractor state
holding a malformed payload. -/
theorem C1_witness :
    sC1d.extW.get? 0 = some ExtPhase.ready ∧ sC1d.results = sC1.results ∧
      sC1d.urlsExtracted = sC1.urlsExtracted :=
  (C1_theorem parse0).1 sC1 sC1d 0 "x" rfl rfl

/-- C2 counterexample: the claim as stated is false for the web app startup
path (src/app.py start_scraper): with a timed-out explorer acknowledgment
(none) the route still reports success, records start_time and seeds the
root URL into the frontier. -/
theorem C2_counterexample :
    (start_scraper "https://r.test/" 1 4 1 0 none).2.success = true ∧
    (start_scraper "https://r.test/" 1 4 1 0 none).1.start_time = some 0 ∧
    (start_scraper "https://r.test/" 1 4 1 0 none).1.explored_queue
      = [Payload.item "https://r.test/" none] :=
  ⟨rfl, rfl, rfl⟩

/-- C2, amended: in the CLI orchestrator (src/scraper.py main) a missing
explorer or extractor acknowledgment within the bounded wait makes start
exit with status 1 and an explicit failure message, before start_time is
recorded and before the root URL is seeded; a running outcome is reachable
only when both acknowledgments arrived, and only then carries start_time
and the seeded frontier.  The web app start route (src/app.py
start_scraper) instead never inspects the acknowledgment outcome: it
reports success, records start_time and seeds the root URL even on
timeout. -/
theorem C2_theorem (root : String) (durationMin nE nX now : Nat) :
    (∀ ack2, scraper_main root durationMin nE nX now none ack2
        = MainResult.exit1 "Explorer workers failed to start (timeout)") ∧
    (∀ s1, scraper_main root durationMin nE nX now (some s1) none
        = MainResult.exit1 "Extractor workers failed to start (timeout)") ∧
    (∀ e x b, scraper_main root durationMin nE nX now e x = MainResult.running b →
        e.isSome = true ∧ x.isSome = true ∧
          b.start_time = some now ∧ b.explored_queue = [Payload.item root none]) ∧
    (∀ ack, (start_scraper root durationMin nE nX now ack).2.success = true ∧
        (start_scraper root durationMin nE nX now ack).1.start_time = some now ∧
        (start_scraper root durationMin nE nX now ack).1.explored_queue
          = [Payload.item root none]) := by
  refine ⟨fun ack2 => rfl, fun s1 => rfl, ?_, fun ack => ⟨rfl, rfl, rfl⟩⟩
  intro e x b h
  cases e with
  | none => simp [scraper_main] at h
  | some se =>
    cases x with
    | none => simp [scraper_main] at h
    | some sx =>
      simp only [scraper_main] at h
      cases h
      simp

/-- C2 witness: the amended theorem applied at concrete arguments, both for
the timed-out CLI path and for a completed startup. -/
theorem C2_witness :
    (scraper_main "https://r.test/" 1 4 1 0 none none
      = MainResult.exit1 "Explorer workers failed to start (timeout)") ∧
    ((some "a" : Option String).isSome = true ∧
      (some "b" : Option String).isSome = true ∧
      bC2.start_time = some 0 ∧
      bC2.explored_queue = [Payload.item "https://r.test/" none]) :=
  ⟨( C2_theorem "https://r.test/" 1 4 1 0).1 none,
   ( C2_theorem "https://r.test/" 1 4 1 0).2.2.1 (some "a") (some "b") bC2 rfl⟩

/-- C3 counterexample: the claim as stated is false, because is_valid_url
applies the extension blacklist to the whole lowercased URL string, not to
its path.  The URL https with host a.com, path /x and query y=.pdf is
rejected by the code, although it has an http or https scheme, a non-empty
host equal to that of the page, and a path that ends with no blacklisted
extension. -/
theorem C3_counterexample :
    is_valid_url "https://a.com/x?y=.pdf" "https://a.com/p" = false ∧
    (pyUrlparse "https://a.com/x?y=.pdf").scheme = "https" ∧
    (pyUrlparse "https://a.com/x?y=.pdf").netloc = "a.com" ∧
    (pyUrlparse "https://a.com/p").netloc = "a.com" ∧
    (pyUrlparse "https://a.com/x?y=.pdf").path = "/x" ∧
    skip_extensions.all
      (fun e => !pyLowerEndsWith (pyUrlparse "https://a.com/x?y=.pdf").path e)
      = true := by
  refine ⟨by decide, by decide, by decide, by decide, by decide, by decide⟩

/-- C3, amended: the link filter is a total deterministic function that
accepts a candidate absolute URL iff it has a scheme, the scheme is http or
https, it has a non-empty network location equal to that of the page it was
found on, and the whole lowercased URL string (rather than only its path)
does not end with any of the blacklisted extensions.  Malformed URLs never
raise: the embedding is total by construction, mirroring the bare except
that returns False. -/
theorem C3_theorem (url base_url : String) :
    is_valid_url url base_url = true ↔
      ((pyUrlparse url).scheme ≠ "" ∧
       ((pyUrlparse url).scheme = "http" ∨ (pyUrlparse url).scheme = "https") ∧
       (pyUrlparse url).netloc ≠ "" ∧
       (pyUrlparse url).netloc = (pyUrlparse base_url).netloc ∧
       ∀ e ∈ skip_extensions, pyLowerEndsWith url e = false) := by
  simp only [is_valid_url]
  split_ifs with h1 h2 h3 h4 h5 <;>
    simp_all [String.isEmpty_iff, List.any_eq_true]
  exact or_iff_not_imp_left.mpr h2

/-- C4: in every run of the system from a fresh job state, for every URL u,
the number of network fetches of u never exceeds the number of winning
visited-set adds of u (a fetch happens only after the worker won the
test-and-add), and u wins the test-and-add at most once; hence u enters the
visited set at most once and is fetched at most once for the lifetime of
the job, for any number of interleaved workers. -/
theorem C4_theorem (parse : String → Soup) (nE nX : Nat) (tr : List Act) (u : String)
    (h : (runSteps parse (initState nE nX) tr).isSome = true) :
    countFetch u tr ≤ countDedupNew u tr ∧ countDedupNew u tr ≤ 1 := by
  obtain ⟨s', hs⟩ := Option.isSome_iff_exists.mp h
  have hc := fetch_dedup_conserv hs u
  have hb := dedup_bound hs u
  rw [pendFetch_init] at hc
  simp [initState] at hb
  omega

/-- C4 witness: the theorem applied to a concrete six-step run that seeds,
pops, wins dedup, fetches and publishes one URL. -/
theorem C4_witness :
    countFetch "http://w.test/" trC4 ≤ countDedupNew "http://w.test/" trC4 ∧
      countDedupNew "http://w.test/" trC4 ≤ 1 :=
  C4_theorem parse0 1 0 trC4 "http://w.test/" (by decide)

/-- C5 counterexample: the claim as stated is false for the broker stop
signal.  In a two-explorer run, worker 1 picks up the seed and reaches its
publish point; worker 0 times out on the empty frontier; the deadline
monitor sets the stop signal; worker 0 times out again and keeps looping,
because the timeout path re-checks only the process-local flag, never the
broker stop signal; worker 1 then publishes its discovered link and worker
0 pops it and starts a new fetch, after the stop flag was set and after
worker 0 had already passed a pop timeout. -/
theorem C5_counterexample :
    (runSteps parse0 (initState 2 0) trA5).map (fun s => s.stopFlag) = some true ∧
    (runSteps parse0 (initState 2 0)
        (trA5 ++ [.eTimeout 0, .ePublish 1, .ePop 0, .eDecode 0,
          .eDedupNew 0 "http://s.test/a",
          .eFetch 0 "http://s.test/a" none])).isSome = true ∧
    countFetchBy 0 trA5 = 0 := by
  refine ⟨by decide, by decide, by decide⟩

/-- C5, amended: the process-local should_stop flag is re-checked by the
while condition before every pop, including right after a pop timeout (a
pop or a timeout step is enabled only when the local flag of that worker is
false); the broker stop_signal is read only by the end-of-iteration check
of a fully processed item, and a worker whose check sees the flag set exits
its loop; a stopped explorer worker never starts a new fetch in any later
run. -/
theorem C5_theorem (parse : String → Soup) :
    (∀ s s' w, stepFn parse s (.ePop w) = some s' →
        s.localStopE.get? w = some false) ∧
    (∀ s s' w, stepFn parse s (.eTimeout w) = some s' →
        s.localStopE.get? w = some false) ∧
    (∀ s s' w, stepFn parse s (.xPop w) = some s' →
        s.localStopX.get? w = some false) ∧
    (∀ s s' w, stepFn parse s (.xTimeout w) = some s' →
        s.localStopX.get? w = some false) ∧
    (∀ s s' w, stepFn parse s (.eCheck w) = some s' → s.stopFlag = true →
        s'.expW.get? w = some .stopped) ∧
    (∀ s s' w, stepFn parse s (.xCheck w) = some s' → s.stopFlag = true →
        s'.extW.get? w = some .stopped) ∧
    (∀ tr s s' w, runSteps parse s tr = some s' →
        s.expW.get? w = some .stopped → countFetchBy w tr = 0) := by
  refine ⟨?_, ?_, ?_, ?_, ?_, ?_, fun tr s s' w h hw => no_fetch_after_stop h hw⟩
  · intro s s' w h
    simp only [stepFn] at h
    split at h
    case h_2 => exact absurd h (by simp)
    case h_1 p rest heq1 heq2 heq3 => exact heq2
  · intro s s' w h
    simp only [stepFn] at h
    split at h
    case h_2 => exact absurd h (by simp)
    case h_1 heq1 heq2 => exact heq2
  · intro s s' w h
    simp only [stepFn] at h
    split at h
    case h_2 => exact absurd h (by simp)
    case h_1 p rest heq1 heq2 heq3 => exact heq2
  · intro s s' w h
    simp only [stepFn] at h
    split at h
    case h_2 => exact absurd h (by simp)
    case h_1 heq1 heq2 => exact heq2
  · intro s s' w h hstop
    simp only [stepFn] at h
    split at h
    case h_2 => exact absurd h (by simp)
    case h_1 heq =>
      cases h
      rw [List.get?_eq_getElem?] at heq ⊢
      obtain ⟨hb, -⟩ := List.getElem?_eq_some.mp heq
      simp [hstop, List.getElem?_set_self hb]
  · intro s s' w h hstop
    simp only [stepFn] at h
    split at h
    case h_2 => exact absurd h (by simp)
    case h_1 heq =>
      cases h
      rw [List.get?_eq_getElem?] at heq ⊢
      obtain ⟨hb, -⟩ := List.getElem?_eq_some.mp heq
      simp [hstop, List.getElem?_set_self hb]

/-- C5 witness: the amended theorem applied to a stopped worker and a
concrete one-step continuation. -/
theorem C5_witness : countFetchBy 0 [Act.seed "http://s.test/b"] = 0 :=
  (C5_theorem parse0).2.2.2.2.2.2 [.seed "http://s.test/b"] sC5 sC5d 0 rfl rfl

/-- C6: for every frontier item that passes dedup, the explorer pipeline
increments urls_found exactly once for that iteration, whatever the list of
discovered links is; over a whole run from a fresh job state, urls_found
equals the number of publish steps, that is one increment per processed
frontier item and not one per link. -/
theorem C6_theorem (parse : String → Soup) :
    (∀ s s' w u h links, s.expW.get? w = some (.publishQ u h links) →
        stepFn parse s (.ePublish w) = some s' →
        s'.urlsFound = s.urlsFound + 1) ∧
    (∀ nE nX tr s', runSteps parse (initState nE nX) tr = some s' →
        s'.urlsFound = countPublish tr) := by
  constructor
  · intro s s' w u h links hw hstep
    have := urlsFound_step hstep
    simpa [isPublish] using this
  · intro nE nX tr s' h
    have := urlsFound_trace h
    simpa [initState] using this

/-- C6 witness: the theorem applied to a concrete publish step with three
discovered links: the counter rises by exactly one. -/
theorem C6_witness : sC6d.urlsFound = sC6.urlsFound + 1 :=
  (C6_theorem parse0).1 sC6 sC6d 0 "http://c.test/" none
    ["http://c.test/a", "http://c.test/b", "http://c.test/c"] rfl rfl

/-- C7: a fetch failure of any kind yields an absent html value and an
empty discovered-link list without raising and without retry (explore_url
returns none and the empty list); the explorer then still pushes exactly
one exploit item carrying the url and the absent html: the publish step
appends exactly one item to the exploit queue for any html value, absent
included. -/
theorem C7_theorem (parse : String → Soup) :
    (∀ u, exploreUrl u none = (none, [])) ∧
    (∀ s w u, s.expW.get? w = some (.fetchQ u) →
        stepFn parse s (.eFetch w u none)
          = some { s with expW := s.expW.set w (.publishQ u none []) }) ∧
    (∀ s s' w u h links, s.expW.get? w = some (.publishQ u h links) →
        stepFn parse s (.ePublish w) = some s' →
        s'.exploit = s.exploit ++ [Payload.item u h]) := by
  refine ⟨fun u => rfl, ?_, ?_⟩
  · intro s w u hw
    rw [List.get?_eq_getElem?] at hw
    simp [stepFn, hw, exploreUrl]
  · intro s s' w u h links hw hstep
    simp only [stepFn, hw] at hstep
    cases hstep
    simp

/-- C7 witness: the theorem applied to a concrete worker at its fetch point
with a failed fetch. -/
theorem C7_witness :
    stepFn parse0 sC7 (.eFetch 0 "http://f.test/" none)
      = some { sC7 with expW := sC7.expW.set 0 (.publishQ "http://f.test/" none []) } :=
  (C7_theorem parse0).2.1 sC7 0 "http://f.test/" rfl

/-- C8: for every html string input, extract_title returns the stripped
document title text when the title query yields one; otherwise the stripped
text of the first h1 when present; otherwise the fixed sentinel No title
found.  The function is total, so no exception propagates. -/
theorem C8_theorem (parse : String → Soup) (h t : String) :
    ((parse h).titleString = some t → extract_title parse (some h) = t.trim) ∧
    ((parse h).titleString = none → (parse h).h1Text = some t →
        extract_title parse (some h) = t.trim) ∧
    ((parse h).titleString = none → (parse h).h1Text = none →
        extract_title parse (some h) = "No title found") := by
  refine ⟨?_, ?_, ?_⟩ <;>
    (intro h1
     first
       | (intro h2; simp [extract_title, extract_title_soup, h1, h2])
       | simp [extract_title, extract_title_soup, h1])

/-- C8 witness: the theorem applied to a document with no title tag and one
h1, which yields the stripped h1 text. -/
theorem C8_witness :
    extract_title parseH1 (some "<h1>Welcome</h1>") = " Welcome ".trim :=
  (C8_theorem parseH1 "<h1>Welcome</h1>" " Welcome ").2.1 rfl rfl

/-- C9: at every reachable point of a job, urls_extracted is at most the
number of exploit items ever enqueued (the number of publish steps, each of
which enqueues exactly one), which in turn is at most urls_found plus one. -/
theorem C9_theorem (parse : String → Soup) (nE nX : Nat) (tr : List Act)
    (s' : SysState) (h : runSteps parse (initState nE nX) tr = some s') :
    s'.urlsExtracted ≤ countPublish tr ∧ countPublish tr ≤ s'.urlsFound + 1 := by
  have h1 := extracted_trace h
  have h2 := urlsFound_trace h
  have hg : goodExploit (initState nE nX) = 0 := by simp [goodExploit, initState]
  have hx : xFlight (initState nE nX) = 0 := by
    simp [xFlight, initState, List.countP_eq_zero, extFlightP]
  have hu : (initState nE nX).urlsExtracted = 0 := rfl
  have hf : (initState nE nX).urlsFound = 0 := rfl
  omega

/-- C9 witness: the theorem applied to a concrete ten-step run that crawls
one page and extracts one title. -/
theorem C9_witness :
    s9.urlsExtracted ≤ countPublish trC9 ∧ countPublish trC9 ≤ s9.urlsFound + 1 :=
  C9_theorem parse0 1 1 trC9 s9 rfl

/-- C10: an exploit item with an absent html still succeeds in the
extractor: the title attached is the specific string Error extracting
title, which differs from the No title found sentinel, and the record step
appends exactly one result record with that title and increments
urls_extracted. -/
theorem C10_theorem (parse : String → Soup) :
    extract_title parse none = "Error extracting title" ∧
    "Error extracting title" ≠ "No title found" ∧
    (∀ s s' w u, s.extW.get? w = some (.decodeQ (.item u none)) →
        stepFn parse s (.xProcess w) = some s' →
        s'.extW.get? w = some (.recordQ u "Error extracting title")) ∧
    (∀ s s' w u, s.extW.get? w = some (.recordQ u "Error extracting title") →
        stepFn parse s (.xRecord w) = some s' →
        s'.results = s.results ++ [⟨u, "Error extracting title"⟩] ∧
        s'.urlsExtracted = s.urlsExtracted + 1) := by
  refine ⟨rfl, by decide, ?_, ?_⟩
  · intro s s' w u hw hstep
    simp only [stepFn, hw, decodePayload] at hstep
    cases hstep
    rw [List.get?_eq_getElem?] at hw ⊢
    obtain ⟨hb, -⟩ := List.getElem?_eq_some.mp hw
    simp [List.getElem?_set_self hb, extract_title]
  · intro s s' w u hw hstep
    simp only [stepFn, hw] at hstep
    cases hstep
    simp

/-- C10 witness: the theorem applied to a concrete extractor state holding
an item whose html is absent. -/
theorem C10_witness :
    sC10d.extW.get? 0 = some (ExtPhase.recordQ "http://n.test/" "Error extracting title") :=
  (C10_theorem parse0).2.2.1 sC10 sC10d 0 "http://n.test/" rfl rfl

end Scraper
